import Mathlib

/-!
Verification of the Crypto Rebound Scanner core (`app3.py`).

Shallow embedding conventions:
* Prices, volumes and percentages are rationals (`ℚ`); the Python source uses
  floats, but all claims are about exact threshold comparisons and algebraic
  identities, which the rational model captures.
* Candle timestamps (`datetime` values in the source) are rationals measured in
  fractional hours; `timedelta(hours=h)` subtraction becomes rational
  subtraction.  `strftime` display formatting is presentation-only and the
  embedded records keep the raw times instead.
* Network fetches (`get_klines`, `get_ticker_24hr`) are modelled by passing
  their results (`Option`-valued) as explicit inputs.
* Python `list.sort` is a stable sort; it is modelled by a stable insertion
  sort (`sortAscBy` / `sortDescBy`).  Python `min`/`max` with a key return the
  first extremal element; they are modelled by `pyMin` / `pyMax`.
-/

namespace Rebound

/-- One OHLC candle as parsed in `analyze_time_window` (`app3.py` lines
167-175): timestamp (fractional hours), high, low and close prices. -/
structure Candle where
  time : ℚ
  high : ℚ
  low : ℚ
  close : ℚ
deriving DecidableEq, Repr

/-- Python `min(l, key=k)`: the first element of `l` with minimal key, `none`
on an empty list. -/
def pyMin (key : Candle → ℚ) : List Candle → Option Candle
  | [] => none
  | c :: cs => some (cs.foldl (fun acc x => if key x < key acc then x else acc) c)

/-- Python `max(l, key=k)`: the first element of `l` with maximal key, `none`
on an empty list. -/
def pyMax (key : Candle → ℚ) : List Candle → Option Candle
  | [] => none
  | c :: cs => some (cs.foldl (fun acc x => if key acc < key x then x else acc) c)

theorem foldlMin_mem (key : Candle → ℚ) :
    ∀ (cs : List Candle) (c : Candle),
      cs.foldl (fun acc x => if key x < key acc then x else acc) c ∈ c :: cs := by
  intro cs
  induction cs with
  | nil => intro c; simp
  | cons x xs ih =>
    intro c
    simp only [List.foldl_cons]
    by_cases hc : key x < key c
    · simp only [if_pos hc]
      rcases List.mem_cons.mp (ih x) with h | h
      · simp [h]
      · simp [h]
    · simp only [if_neg hc]
      rcases List.mem_cons.mp (ih c) with h | h
      · simp [h]
      · simp [h]

theorem foldlMin_le (key : Candle → ℚ) :
    ∀ (cs : List Candle) (c y : Candle), y ∈ c :: cs →
      key (cs.foldl (fun acc x => if key x < key acc then x else acc) c) ≤ key y := by
  intro cs
  induction cs with
  | nil =>
    intro c y hy
    simp only [List.mem_singleton] at hy
    simp [hy]
  | cons x xs ih =>
    intro c y hy
    simp only [List.foldl_cons]
    by_cases hc : key x < key c
    · simp only [if_pos hc]
      rcases List.mem_cons.mp hy with h | h
      · subst h
        exact le_trans (ih x x (by simp)) (le_of_lt hc)
      · exact ih x y h
    · simp only [if_neg hc]
      rcases List.mem_cons.mp hy with h | h
      · subst h
        exact ih y y (by simp)
      · rcases List.mem_cons.mp h with h2 | h2
        · subst h2
          exact le_trans (ih c c (by simp)) (not_lt.mp hc)
        · exact ih c y (by simp [h2])

theorem foldlMax_mem (key : Candle → ℚ) :
    ∀ (cs : List Candle) (c : Candle),
      cs.foldl (fun acc x => if key acc < key x then x else acc) c ∈ c :: cs := by
  intro cs
  induction cs with
  | nil => intro c; simp
  | cons x xs ih =>
    intro c
    simp only [List.foldl_cons]
    by_cases hc : key c < key x
    · simp only [if_pos hc]
      rcases List.mem_cons.mp (ih x) with h | h
      · simp [h]
      · simp [h]
    · simp only [if_neg hc]
      rcases List.mem_cons.mp (ih c) with h | h
      · simp [h]
      · simp [h]

theorem foldlMax_ge (key : Candle → ℚ) :
    ∀ (cs : List Candle) (c y : Candle), y ∈ c :: cs →
      key y ≤ key (cs.foldl (fun acc x => if key acc < key x then x else acc) c) := by
  intro cs
  induction cs with
  | nil =>
    intro c y hy
    simp only [List.mem_singleton] at hy
    simp [hy]
  | cons x xs ih =>
    intro c y hy
    simp only [List.foldl_cons]
    by_cases hc : key c < key x
    · simp only [if_pos hc]
      rcases List.mem_cons.mp hy with h | h
      · subst h
        exact le_trans (le_of_lt hc) (ih x x (by simp))
      · exact ih x y h
    · simp only [if_neg hc]
      rcases List.mem_cons.mp hy with h | h
      · subst h
        exact ih y y (by simp)
      · rcases List.mem_cons.mp h with h2 | h2
        · subst h2
          exact le_trans (not_lt.mp hc) (ih c c (by simp))
        · exact ih c y (by simp [h2])

theorem pyMin_mem (key : Candle → ℚ) (l : List Candle) (m : Candle)
    (h : pyMin key l = some m) : m ∈ l := by
  match l with
  | [] => simp [pyMin] at h
  | c :: cs =>
    simp only [pyMin, Option.some.injEq] at h
    subst h
    exact foldlMin_mem key cs c

theorem pyMin_le (key : Candle → ℚ) (l : List Candle) (m : Candle)
    (h : pyMin key l = some m) : ∀ x ∈ l, key m ≤ key x := by
  match l with
  | [] => simp [pyMin] at h
  | c :: cs =>
    simp only [pyMin, Option.some.injEq] at h
    subst h
    exact fun x hx => foldlMin_le key cs c x hx

theorem pyMax_mem (key : Candle → ℚ) (l : List Candle) (m : Candle)
    (h : pyMax key l = some m) : m ∈ l := by
  match l with
  | [] => simp [pyMax] at h
  | c :: cs =>
    simp only [pyMax, Option.some.injEq] at h
    subst h
    exact foldlMax_mem key cs c

theorem pyMax_ge (key : Candle → ℚ) (l : List Candle) (m : Candle)
    (h : pyMax key l = some m) : ∀ x ∈ l, key x ≤ key m := by
  match l with
  | [] => simp [pyMax] at h
  | c :: cs =>
    simp only [pyMax, Option.some.injEq] at h
    subst h
    exact fun x hx => foldlMax_ge key cs c x hx

theorem pyMax_isSome (key : Candle → ℚ) (l : List Candle) (h : l ≠ []) :
    (pyMax key l).isSome := by
  match l with
  | [] => simp at h
  | c :: cs => simp [pyMax]

/-- Stable ascending insertion by key: the new element goes after every
already-placed element whose key is not strictly greater.  This is the
per-element behaviour of Python's stable `list.sort(key=...)`. -/
def insertAsc (key : Candle → ℚ) (x : Candle) : List Candle → List Candle
  | [] => [x]
  | y :: ys => if key x < key y then x :: y :: ys else y :: insertAsc key x ys

/-- Python `candles.sort(key=lambda x: x['time'])`-style stable ascending sort
(elements are inserted in their original order, each after equal keys). -/
def sortAscBy (key : Candle → ℚ) (l : List Candle) : List Candle :=
  l.foldl (fun acc x => insertAsc key x acc) []

/-- The sorted-by-timestamp candle list, `candles.sort(key=lambda x: x['time'])`
(`app3.py` line 177). -/
def sortByTime (l : List Candle) : List Candle := sortAscBy (fun c => c.time) l

/-- Window restriction of `analyze_time_window` (`app3.py` lines 177-180):
sort by timestamp, then keep the candles at or after `now - lookbackHours`. -/
def windowCandles (now lookbackHours : ℚ) (candles : List Candle) : List Candle :=
  (sortByTime candles).filter (fun c => now - lookbackHours ≤ c.time)

/-- The dictionary returned by `analyze_time_window` (`app3.py` lines 210-216).
The source formats `low_time` / `high_time` with `strftime` for display; the
embedding keeps the raw timestamps. -/
structure WindowAnalysis where
  low_price : ℚ
  low_time : ℚ
  high_price : ℚ
  high_time : ℚ
  price_change : ℚ
deriving DecidableEq, Repr

/-- Embedding of `WebScanner.analyze_time_window` (`app3.py` lines 144-218) given the result
of its `get_klines` fetch (`none` models both a failed fetch and the Python
falsiness test `not klines`; an empty list is also rejected by the length
check).  The interval/limit arithmetic (lines 147-161) only shapes the fetch
request and is external to the returned data. -/
def analyze_time_window (now lookbackHours : ℚ) (klines : Option (List Candle)) :
    Option WindowAnalysis :=
  match klines with
  | none => none
  | some ks =>
    if ks.length < 10 then none else
    let window_candles := windowCandles now lookbackHours ks
    if window_candles.length < 5 then none else
    match pyMin (fun c => c.low) window_candles with
    | none => none
    | some absolute_low =>
      let low_price := absolute_low.low
      let low_time := absolute_low.time
      let candles_after_low := window_candles.filter (fun c => low_time < c.time)
      match pyMax (fun c => c.high) candles_after_low with
      | none => none
      | some highest_after_low =>
        if low_price ≤ 0 then none else
        some { low_price := low_price, low_time := low_time,
               high_price := highest_after_low.high,
               high_time := highest_after_low.time,
               price_change := (highest_after_low.high - low_price) / low_price * 100 }

/-- Severity flag of `analyze_21d_with_drawdown` (`app3.py` lines 271-280).
The source prefixes each label with a coloured-circle emoji; the embedding
keeps only the severity word. -/
def drawdownFlag (drawdown_21d : ℚ) : String :=
  if 30 ≤ drawdown_21d then "CRITICAL"
  else if 20 ≤ drawdown_21d then "HIGH"
  else if 10 ≤ drawdown_21d then "MEDIUM"
  else if 5 ≤ drawdown_21d then "LOW"
  else "MINIMAL"

/-- The dictionary returned by `analyze_21d_with_drawdown` (`app3.py` lines
285-290), with the raw timestamp in place of the `strftime` string. -/
structure DrawdownAnalysis where
  high_21d_price : ℚ
  high_21d_time : ℚ
  drawdown_21d : ℚ
  drawdown_flag : String
deriving DecidableEq, Repr

/-- Scanner configuration parsed in `WebScanner.__init__` (`app3.py` lines
74-86).  Fields not consulted by the analysis code (green-circle highlight
bounds, presentation only) are omitted. -/
structure Config where
  lookback_hours : ℚ
  lookback_48h_hours : ℚ
  lookback_96h_hours : ℚ
  lookback_21d_hours : ℚ
  min_price_change : ℚ
  min_volume_24h : ℚ
  max_drawdown : ℚ
  timeframe : String
  timeframe_21d : String
  filter_timeframe : String
  filter_enabled : Bool
deriving DecidableEq, Repr

/-- Embedding of `WebScanner.analyze_21d_with_drawdown` (`app3.py` lines 220-292) given the
result of its `get_klines` fetch. -/
def analyze_21d_with_drawdown (cfg : Config) (now current_price : ℚ)
    (klines : Option (List Candle)) : Option DrawdownAnalysis :=
  match klines with
  | none => none
  | some ks =>
    if ks.length < 10 then none else
    let window_candles := windowCandles now cfg.lookback_21d_hours ks
    if window_candles.length < 5 then none else
    match pyMax (fun c => c.high) window_candles with
    | none => none
    | some absolute_high =>
      let high_price := absolute_high.high
      if high_price ≤ 0 then none else
      let drawdown_21d := (high_price - current_price) / high_price * 100
      some { high_21d_price := high_price, high_21d_time := absolute_high.time,
             drawdown_21d := drawdown_21d, drawdown_flag := drawdownFlag drawdown_21d }

/-- Candle series used to check the window analyzer on a concrete input:
ten candles at hours 1..10, minimum low 1 at hour 3, maximum high 5 after the
low at hour 7. -/
def c1Series : List Candle :=
  [⟨1, 3, 2, 2⟩, ⟨2, 3, 2, 2⟩, ⟨3, 2, 1, 1⟩, ⟨4, 3, 2, 2⟩, ⟨5, 4, 2, 2⟩,
   ⟨6, 3, 2, 2⟩, ⟨7, 5, 2, 2⟩, ⟨8, 3, 2, 2⟩, ⟨9, 4, 2, 2⟩, ⟨10, 3, 2, 2⟩]

/-- C1: whenever `analyze_time_window` returns a result, the low anchor is a
window candle attaining the global minimum low, the high anchor is a window
candle strictly after the low attaining the maximum high among such candles,
the high time is strictly after the low time, the low price is positive, and
`price_change = (high - low) / low * 100`. -/
theorem analyze_time_window_extrema (now lb : ℚ) (ks : List Candle)
    (r : WindowAnalysis) (h : analyze_time_window now lb (some ks) = some r) :
    (∃ c ∈ windowCandles now lb ks,
        c.low = r.low_price ∧ c.time = r.low_time
        ∧ ∀ c2 ∈ windowCandles now lb ks, r.low_price ≤ c2.low)
    ∧ (∃ c ∈ windowCandles now lb ks,
        c.high = r.high_price ∧ c.time = r.high_time ∧ r.low_time < c.time
        ∧ ∀ c2 ∈ windowCandles now lb ks, r.low_time < c2.time → c2.high ≤ r.high_price)
    ∧ r.low_time < r.high_time
    ∧ 0 < r.low_price
    ∧ r.price_change = (r.high_price - r.low_price) / r.low_price * 100 := by
  simp only [analyze_time_window] at h
  by_cases h10 : ks.length < 10
  · simp [h10] at h
  rw [if_neg h10] at h
  by_cases h5 : (windowCandles now lb ks).length < 5
  · simp [h5] at h
  rw [if_neg h5] at h
  cases hmin : pyMin (fun c => c.low) (windowCandles now lb ks) with
  | none => simp [hmin] at h
  | some al =>
    simp only [hmin] at h
    cases hmax : pyMax (fun c => c.high)
        ((windowCandles now lb ks).filter (fun c => al.time < c.time)) with
    | none => simp [hmax] at h
    | some hi =>
      simp only [hmax] at h
      by_cases hl0 : al.low ≤ 0
      · simp [hl0] at h
      rw [if_neg hl0] at h
      have hr : r = ⟨al.low, al.time, hi.high, hi.time,
          (hi.high - al.low) / al.low * 100⟩ :=
        (Option.some.inj h).symm
      subst hr
      have hal_mem := pyMin_mem _ _ _ hmin
      have hal_le := pyMin_le _ _ _ hmin
      have hhi_mem := pyMax_mem _ _ _ hmax
      have hhi_ge := pyMax_ge _ _ _ hmax
      have hhi_w : hi ∈ windowCandles now lb ks :=
        (List.mem_filter.mp hhi_mem).1
      have hhi_t : al.time < hi.time := by
        have := (List.mem_filter.mp hhi_mem).2
        simpa using this
      refine ⟨⟨al, hal_mem, rfl, rfl, fun c2 hc2 => hal_le c2 hc2⟩,
        ⟨hi, hhi_w, rfl, rfl, hhi_t, fun c2 hc2 ht => ?_⟩,
        hhi_t, lt_of_not_le hl0, rfl⟩
      exact hhi_ge c2 (List.mem_filter.mpr ⟨hc2, by simpa using ht⟩)

/-- Witness for C1: the theorem applied to the concrete series `c1Series`
with `now = 10`, lookback 10 h; low anchor (time 3, low 1), high anchor
(time 7, high 5), `price_change = 400`. -/
theorem analyze_time_window_extrema_witness :
    (∃ c ∈ windowCandles 10 10 c1Series,
        c.low = 1 ∧ c.time = 3
        ∧ ∀ c2 ∈ windowCandles 10 10 c1Series, (1 : ℚ) ≤ c2.low)
    ∧ (∃ c ∈ windowCandles 10 10 c1Series,
        c.high = 5 ∧ c.time = 7 ∧ (3 : ℚ) < c.time
        ∧ ∀ c2 ∈ windowCandles 10 10 c1Series, (3 : ℚ) < c2.time → c2.high ≤ 5)
    ∧ (3 : ℚ) < 7
    ∧ (0 : ℚ) < 1
    ∧ (400 : ℚ) = (5 - 1) / 1 * 100 := by
  have h : analyze_time_window 10 10 (some c1Series) = some ⟨1, 3, 5, 7, 400⟩ := by
    norm_num [analyze_time_window, windowCandles, sortByTime, sortAscBy, insertAsc,
      pyMin, pyMax, c1Series]
  exact analyze_time_window_extrema 10 10 c1Series ⟨1, 3, 5, 7, 400⟩ h

/-- C2: the drawdown severity flag realizes the top-down thresholds
`>=30 CRITICAL`, `>=20 HIGH`, `>=10 MEDIUM`, `>=5 LOW`, else `MINIMAL`:
the nine boundary probes of the claim evaluate as stated, and every rational
drawdown percentage lands in exactly one bucket (the five labels partition
`ℚ` into the five stated intervals). -/
theorem drawdownFlag_buckets :
    (drawdownFlag 29.9 = "HIGH" ∧ drawdownFlag 30 = "CRITICAL"
      ∧ drawdownFlag 19.9 = "MEDIUM" ∧ drawdownFlag 20 = "HIGH"
      ∧ drawdownFlag 9.9 = "LOW" ∧ drawdownFlag 10 = "MEDIUM"
      ∧ drawdownFlag 4.9 = "MINIMAL" ∧ drawdownFlag 5 = "LOW"
      ∧ drawdownFlag 0 = "MINIMAL")
    ∧ ∀ x : ℚ,
      (drawdownFlag x = "CRITICAL" ↔ 30 ≤ x)
      ∧ (drawdownFlag x = "HIGH" ↔ 20 ≤ x ∧ x < 30)
      ∧ (drawdownFlag x = "MEDIUM" ↔ 10 ≤ x ∧ x < 20)
      ∧ (drawdownFlag x = "LOW" ↔ 5 ≤ x ∧ x < 10)
      ∧ (drawdownFlag x = "MINIMAL" ↔ x < 5) := by
  constructor
  · norm_num [drawdownFlag]
  · intro x
    unfold drawdownFlag
    split_ifs with h1 h2 h3 h4 <;>
      refine ⟨?_, ?_, ?_, ?_, ?_⟩ <;> simp <;>
        first
          | linarith
          | (intro hx; linarith)
          | (constructor <;> linarith)

/-- Nine-candle series, all inside the lookback window for `now = 9`,
lookback 9 h: minimum low 1 at hour 3, candles after the low, all lows
positive — yet shorter than the 10-candle pre-check of
`analyze_time_window`. -/
def c3Series : List Candle :=
  [⟨1, 3, 2, 2⟩, ⟨2, 3, 2, 2⟩, ⟨3, 2, 1, 1⟩, ⟨4, 3, 2, 2⟩, ⟨5, 4, 2, 2⟩,
   ⟨6, 3, 2, 2⟩, ⟨7, 5, 2, 2⟩, ⟨8, 3, 2, 2⟩, ⟨9, 4, 2, 2⟩]

/-- Counterexample to C3: a series whose window holds 9 ≥ 5 candles, whose
global-minimum-low candle (time 3, low 1) has candles strictly after it, and
whose low price is positive, on which `analyze_time_window` nevertheless
returns `none` — because of the `len(klines) < 10` pre-check on the fetched
series (`app3.py` line 164), a fourth failure case the claim omits. -/
theorem analyze_time_window_nine_candles_cex :
    5 ≤ (windowCandles 9 9 c3Series).length
    ∧ pyMin (fun c => c.low) (windowCandles 9 9 c3Series) = some ⟨3, 2, 1, 1⟩
    ∧ (0 : ℚ) < (1 : ℚ)
    ∧ (windowCandles 9 9 c3Series).filter (fun c => (3 : ℚ) < c.time) ≠ []
    ∧ analyze_time_window 9 9 (some c3Series) = none := by
  norm_num [analyze_time_window, windowCandles, sortByTime, sortAscBy, insertAsc,
    pyMin, pyMax, c3Series]
  simp

/-- C3 amended: `analyze_time_window` returns absent exactly in these cases —
the fetch failed, the fetched series has fewer than 10 candles (a pre-window
check the original claim omits), fewer than 5 candles fall in the lookback
window, no candle lies strictly after the low anchor, or the low price is not
positive; on every other input it returns a result. -/
theorem analyze_time_window_failure_cases (now lb : ℚ) (ks : List Candle) :
    analyze_time_window now lb none = none
    ∧ (ks.length < 10 → analyze_time_window now lb (some ks) = none)
    ∧ ((windowCandles now lb ks).length < 5 →
        analyze_time_window now lb (some ks) = none)
    ∧ (∀ la, pyMin (fun c => c.low) (windowCandles now lb ks) = some la →
        (windowCandles now lb ks).filter (fun c => la.time < c.time) = [] →
        analyze_time_window now lb (some ks) = none)
    ∧ (∀ la, pyMin (fun c => c.low) (windowCandles now lb ks) = some la →
        la.low ≤ 0 → analyze_time_window now lb (some ks) = none)
    ∧ (∀ la, 10 ≤ ks.length → 5 ≤ (windowCandles now lb ks).length →
        pyMin (fun c => c.low) (windowCandles now lb ks) = some la →
        (windowCandles now lb ks).filter (fun c => la.time < c.time) ≠ [] →
        0 < la.low → (analyze_time_window now lb (some ks)).isSome) := by
  refine ⟨rfl, ?_, ?_, ?_, ?_, ?_⟩
  · intro h10
    simp [analyze_time_window, h10]
  · intro h5
    simp [analyze_time_window, h5]
  · intro la hla hfilt
    simp only [analyze_time_window]
    split
    · rfl
    split
    · rfl
    simp only [hla, hfilt, pyMax]
  · intro la hla hlow
    simp only [analyze_time_window]
    split
    · rfl
    split
    · rfl
    simp only [hla]
    cases hmax : pyMax (fun c => c.high)
        ((windowCandles now lb ks).filter (fun c => la.time < c.time)) with
    | none => simp
    | some hi => simp [hlow]
  · intro la h10 h5 hla hfilt hlow
    simp only [analyze_time_window]
    rw [if_neg (not_lt.mpr h10), if_neg (not_lt.mpr h5)]
    simp only [hla]
    cases hmax : pyMax (fun c => c.high)
        ((windowCandles now lb ks).filter (fun c => la.time < c.time)) with
    | none =>
      exact absurd (pyMax_isSome (fun c => c.high) _ hfilt) (by simp [hmax])
    | some hi => simp [not_le.mpr hlow]

/-- Witness for the amended C3: on the 10-candle series `c1Series` every
success condition holds and the analyzer indeed returns a result. -/
theorem analyze_time_window_failure_cases_witness :
    (analyze_time_window 10 10 (some c1Series)).isSome := by
  refine (analyze_time_window_failure_cases 10 10 c1Series).2.2.2.2.2
    ⟨3, 2, 1, 1⟩ (by norm_num [c1Series]) ?_ ?_ ?_ (by norm_num)
  · norm_num [windowCandles, sortByTime, sortAscBy, insertAsc, c1Series]
  · norm_num [pyMin, windowCandles, sortByTime, sortAscBy, insertAsc, c1Series]
  · norm_num [windowCandles, sortByTime, sortAscBy, insertAsc, c1Series]
    simp

/-- Configuration with a 10-hour drawdown horizon used on concrete inputs of
the drawdown classifier. -/
def c4Config : Config :=
  ⟨12, 48, 96, 10, 5, 1000, 5, "15m", "1h", "21d", true⟩

/-- Ten-candle series for the drawdown window: maximum high 10 at hour 6. -/
def c4Series : List Candle :=
  [⟨1, 3, 2, 2⟩, ⟨2, 3, 2, 2⟩, ⟨3, 2, 1, 1⟩, ⟨4, 3, 2, 2⟩, ⟨5, 4, 2, 2⟩,
   ⟨6, 10, 2, 2⟩, ⟨7, 5, 2, 2⟩, ⟨8, 3, 2, 2⟩, ⟨9, 4, 2, 2⟩, ⟨10, 3, 2, 2⟩]

/-- Counterexample to C4: with period peak 10 and current price 20 (the
current price is not constrained to lie inside the candle window), the
classifier returns a result with `drawdown_21d = -100 < 0`. -/
theorem analyze_21d_negative_drawdown_cex :
    analyze_21d_with_drawdown c4Config 10 20 (some c4Series)
      = some ⟨10, 6, -100, "MINIMAL"⟩
    ∧ (-100 : ℚ) < 0 := by
  norm_num [analyze_21d_with_drawdown, drawdownFlag, windowCandles, sortByTime,
    sortAscBy, insertAsc, pyMax, c4Series, c4Config]

/-- C4 amended: whenever the drawdown classifier returns a result the period
peak is positive and is the maximum high of the window, and the drawdown is
`(peak - current) / peak * 100`, which is nonnegative exactly when the current
price does not exceed the peak (so a negative drawdown is possible when the
current price lies above every window high, contrary to the original claim,
and impossible otherwise). -/
theorem analyze_21d_drawdown_sign (cfg : Config) (now cp : ℚ) (ks : List Candle)
    (r : DrawdownAnalysis)
    (h : analyze_21d_with_drawdown cfg now cp (some ks) = some r) :
    0 < r.high_21d_price
    ∧ (∀ c ∈ windowCandles now cfg.lookback_21d_hours ks,
        c.high ≤ r.high_21d_price)
    ∧ r.drawdown_21d = (r.high_21d_price - cp) / r.high_21d_price * 100
    ∧ (0 ≤ r.drawdown_21d ↔ cp ≤ r.high_21d_price) := by
  simp only [analyze_21d_with_drawdown] at h
  by_cases h10 : ks.length < 10
  · simp [h10] at h
  rw [if_neg h10] at h
  by_cases h5 : (windowCandles now cfg.lookback_21d_hours ks).length < 5
  · simp [h5] at h
  rw [if_neg h5] at h
  cases hmax : pyMax (fun c => c.high) (windowCandles now cfg.lookback_21d_hours ks) with
  | none => simp [hmax] at h
  | some ah =>
    simp only [hmax] at h
    by_cases hp : ah.high ≤ 0
    · simp [hp] at h
    rw [if_neg hp] at h
    have hr : r = ⟨ah.high, ah.time, (ah.high - cp) / ah.high * 100,
        drawdownFlag ((ah.high - cp) / ah.high * 100)⟩ := (Option.some.inj h).symm
    subst hr
    have hpos : (0 : ℚ) < ah.high := lt_of_not_le hp
    refine ⟨hpos, fun c hc => pyMax_ge _ _ _ hmax c hc, rfl, ?_⟩
    constructor
    · intro h0
      by_contra hcp
      push_neg at hcp
      have hneg : (ah.high - cp) / ah.high * 100 < 0 :=
        mul_neg_of_neg_of_pos (div_neg_of_neg_of_pos (by linarith) hpos) (by norm_num)
      linarith
    · intro hcp
      exact mul_nonneg (div_nonneg (by linarith) (le_of_lt hpos)) (by norm_num)

/-- Witness for the amended C4: peak 10 at hour 6, current price 4,
drawdown 60 ≥ 0. -/
theorem analyze_21d_drawdown_sign_witness :
    (0 : ℚ) < 10
    ∧ (∀ c ∈ windowCandles 10 c4Config.lookback_21d_hours c4Series,
        c.high ≤ (10 : ℚ))
    ∧ (60 : ℚ) = (10 - 4) / 10 * 100
    ∧ ((0 : ℚ) ≤ 60 ↔ (4 : ℚ) ≤ 10) := by
  have h : analyze_21d_with_drawdown c4Config 10 4 (some c4Series)
      = some ⟨10, 6, 60, "CRITICAL"⟩ := by
    norm_num [analyze_21d_with_drawdown, drawdownFlag, windowCandles, sortByTime,
      sortAscBy, insertAsc, pyMax, c4Series, c4Config]
  exact analyze_21d_drawdown_sign c4Config 10 4 c4Series ⟨10, 6, 60, "CRITICAL"⟩ h

/-- The fields of the 24h ticker consulted by `analyze_pair` (`app3.py`
lines 329-330). -/
structure Ticker where
  lastPrice : ℚ
  quoteVolume : ℚ
deriving DecidableEq, Repr

/-- Python `int(q)`: truncation toward zero. -/
def pyInt (q : ℚ) : ℤ := if 0 ≤ q then ⌊q⌋ else ⌈q⌉

/-- Python float floor-division `a // b`. -/
def pyFloorDiv (a b : ℚ) : ℚ := ⌊a / b⌋

/-- Python float modulo `a % b` (for positive `b`). -/
def pyMod (a b : ℚ) : ℚ := a - b * ⌊a / b⌋

/-- Embedding of `WebScanner.format_time_display` (`app3.py` lines 294-310). -/
def format_time_display (hours : ℚ) : String :=
  if 24 ≤ hours then
    let days := pyInt (pyFloorDiv hours 24)
    let remaining_hours := pyInt (pyMod hours 24)
    if 0 < remaining_hours then (s!"{days}d{remaining_hours}h") else (s!"{days}d")
  else if 1 ≤ hours then
    let whole_hours := pyInt (pyFloorDiv hours 1)
    let minutes := pyInt (pyMod hours 1 * 60)
    if 0 < minutes then (s!"{whole_hours}h{minutes}m") else (s!"{whole_hours}h")
  else
    (s!"{pyInt (hours * 60)}m")

/-- The `ReboundResult` dataclass (`app3.py` lines 25-58).  Timestamp-valued
fields keep the raw times where the source stores `strftime` strings. -/
structure ReboundResult where
  symbol : String
  current_price : ℚ
  rebound_pct : ℚ
  rebound_hours : ℚ
  drawdown_from_high : ℚ
  drawdown_21d : ℚ
  drawdown_flag : String
  price_change_48h : ℚ
  price_change_96h : ℚ
  price_change_21d : ℚ
  volume_24h : ℚ
  low_price : ℚ
  low_time : ℚ
  high_price : ℚ
  high_time : ℚ
  low_48h_price : ℚ
  low_48h_time : ℚ
  high_48h_price : ℚ
  high_48h_time : ℚ
  low_96h_price : ℚ
  low_96h_time : ℚ
  high_96h_price : ℚ
  high_96h_time : ℚ
  low_21d_price : ℚ
  low_21d_time : ℚ
  high_21d_price : ℚ
  high_21d_time : ℚ
  high_21d_for_drawdown : ℚ
  high_21d_time_for_drawdown : ℚ
  time_display : String
  candles_count : ℕ
  scan_time : ℚ
deriving DecidableEq

/-- The per-symbol data-source responses consumed by `analyze_pair`: the 24h
ticker and the five kline fetches (48h, 96h, 21d windows, the 21d drawdown
fetch, and the recent-window fetch at `candle_limit_recent`). -/
structure PairData where
  ticker : Option Ticker
  klines_48h : Option (List Candle)
  klines_96h : Option (List Candle)
  klines_21d : Option (List Candle)
  klines_21d_drawdown : Option (List Candle)
  klines_recent : Option (List Candle)
deriving DecidableEq

/-- Embedding of `WebScanner.analyze_pair` (`app3.py` lines 322-456) over the injected
data-source responses; `now` is the wall-clock instant of the scan. -/
def analyze_pair (cfg : Config) (now : ℚ) (symbol : String) (d : PairData) :
    Option ReboundResult :=
  match d.ticker with
  | none => none
  | some ticker =>
    let current_price := ticker.lastPrice
    let volume_24h := ticker.quoteVolume
    if volume_24h < cfg.min_volume_24h then none else
    match analyze_time_window now cfg.lookback_48h_hours d.klines_48h with
    | none => none
    | some analysis_48h =>
    match analyze_time_window now cfg.lookback_96h_hours d.klines_96h with
    | none => none
    | some analysis_96h =>
    match analyze_time_window now cfg.lookback_21d_hours d.klines_21d with
    | none => none
    | some analysis_21d =>
    match analyze_21d_with_drawdown cfg now current_price d.klines_21d_drawdown with
    | none => none
    | some analysis_21d_drawdown =>
    -- lines 357-363: the filter block re-tests `is None` on analyses that are
    -- non-absent on every path reaching it, so no branch can reject; the
    -- tests are embedded verbatim on the matched values.
    if cfg.filter_enabled ∧ cfg.filter_timeframe = "48h"
        ∧ (some analysis_48h : Option WindowAnalysis) = none then none
    else if cfg.filter_enabled ∧ cfg.filter_timeframe = "96h"
        ∧ (some analysis_96h : Option WindowAnalysis) = none then none
    else if cfg.filter_enabled ∧ cfg.filter_timeframe = "21d"
        ∧ (some analysis_21d : Option WindowAnalysis) = none then none
    else
    match d.klines_recent with
    | none => none
    | some klines =>
    if klines.length < 4 then none else
    let recent_candles := windowCandles now cfg.lookback_hours klines
    if recent_candles.length < 4 then none else
    match pyMin (fun c => c.low) recent_candles with
    | none => none
    | some absolute_low =>
    let low_price := absolute_low.low
    let low_time := absolute_low.time
    let candles_after_low := recent_candles.filter (fun c => low_time < c.time)
    match pyMax (fun c => c.high) candles_after_low with
    | none => none
    | some highest_after_low =>
    let high_price := highest_after_low.high
    let high_time := highest_after_low.time
    let time_diff_hours := high_time - low_time
    if cfg.lookback_hours < time_diff_hours then none else
    if low_price ≤ 0 then none else
    let rebound_pct := (high_price - low_price) / low_price * 100
    if rebound_pct < cfg.min_price_change then none else
    if high_price ≤ 0 then none else
    let drawdown := (high_price - current_price) / high_price * 100
    if cfg.max_drawdown < drawdown then none else
    some { symbol := symbol
           current_price := current_price
           rebound_pct := rebound_pct
           rebound_hours := time_diff_hours
           drawdown_from_high := drawdown
           drawdown_21d := analysis_21d_drawdown.drawdown_21d
           drawdown_flag := analysis_21d_drawdown.drawdown_flag
           price_change_48h := analysis_48h.price_change
           price_change_96h := analysis_96h.price_change
           price_change_21d := analysis_21d.price_change
           volume_24h := volume_24h
           low_price := low_price
           low_time := low_time
           high_price := high_price
           high_time := high_time
           low_48h_price := analysis_48h.low_price
           low_48h_time := analysis_48h.low_time
           high_48h_price := analysis_48h.high_price
           high_48h_time := analysis_48h.high_time
           low_96h_price := analysis_96h.low_price
           low_96h_time := analysis_96h.low_time
           high_96h_price := analysis_96h.high_price
           high_96h_time := analysis_96h.high_time
           low_21d_price := analysis_21d.low_price
           low_21d_time := analysis_21d.low_time
           high_21d_price := analysis_21d.high_price
           high_21d_time := analysis_21d.high_time
           high_21d_for_drawdown := analysis_21d_drawdown.high_21d_price
           high_21d_time_for_drawdown := analysis_21d_drawdown.high_21d_time
           time_display := format_time_display time_diff_hours
           candles_count := recent_candles.length
           scan_time := now }

/-- Embedding of `WebScanner.get_filter_price_change` (`app3.py` lines 312-320). -/
def get_filter_price_change (cfg : Config) (result : ReboundResult) : ℚ :=
  if cfg.filter_timeframe = "48h" then result.price_change_48h
  else if cfg.filter_timeframe = "96h" then result.price_change_96h
  else if cfg.filter_timeframe = "21d" then result.price_change_21d
  else result.price_change_48h

/-- Configuration for the boundary-equality run of `analyze_pair`: minimum
volume 1000, minimum rebound 5 %, maximum pullback 20/21 % — each met with
exact equality by `c5Data`. -/
def c5Config : Config :=
  ⟨12, 48, 96, 720, 5, 1000, 20/21, "15m", "1h", "21d", true⟩

/-- 48h-window candles (cutoff 952 for `now = 1000`): minimum low 5 at hour
956, maximum high 20 after it at hour 960. -/
def c5Klines48 : List Candle :=
  [⟨955, 12, 10, 10⟩, ⟨956, 12, 5, 10⟩, ⟨957, 12, 10, 10⟩, ⟨958, 12, 10, 10⟩,
   ⟨959, 12, 10, 10⟩, ⟨960, 20, 10, 10⟩, ⟨961, 12, 10, 10⟩, ⟨962, 12, 10, 10⟩,
   ⟨963, 12, 10, 10⟩, ⟨964, 12, 10, 10⟩]

/-- 96h-window candles (cutoff 904): same shape at hours 910-919. -/
def c5Klines96 : List Candle :=
  [⟨910, 12, 10, 10⟩, ⟨911, 12, 5, 10⟩, ⟨912, 12, 10, 10⟩, ⟨913, 12, 10, 10⟩,
   ⟨914, 12, 10, 10⟩, ⟨915, 20, 10, 10⟩, ⟨916, 12, 10, 10⟩, ⟨917, 12, 10, 10⟩,
   ⟨918, 12, 10, 10⟩, ⟨919, 12, 10, 10⟩]

/-- 21d-window candles (cutoff 280): same shape at hours 300-309. -/
def c5Klines21 : List Candle :=
  [⟨300, 12, 10, 10⟩, ⟨301, 12, 5, 10⟩, ⟨302, 12, 10, 10⟩, ⟨303, 12, 10, 10⟩,
   ⟨304, 12, 10, 10⟩, ⟨305, 20, 10, 10⟩, ⟨306, 12, 10, 10⟩, ⟨307, 12, 10, 10⟩,
   ⟨308, 12, 10, 10⟩, ⟨309, 12, 10, 10⟩]

/-- Drawdown-window candles: period peak 200 at hour 305. -/
def c5KlinesDD : List Candle :=
  [⟨300, 12, 10, 10⟩, ⟨301, 12, 10, 10⟩, ⟨302, 12, 10, 10⟩, ⟨303, 12, 10, 10⟩,
   ⟨304, 12, 10, 10⟩, ⟨305, 200, 10, 10⟩, ⟨306, 12, 10, 10⟩, ⟨307, 12, 10, 10⟩,
   ⟨308, 12, 10, 10⟩, ⟨309, 12, 10, 10⟩]

/-- Recent-window candles (cutoff 988): low 100 at hour 991, post-low high
105 at hour 993; with current price 104 the rebound is exactly 5 % and the
pullback exactly 20/21 %. -/
def c5Recent : List Candle :=
  [⟨990, 101, 201/2, 101⟩, ⟨991, 201/2, 100, 100⟩, ⟨992, 104, 101, 101⟩,
   ⟨993, 105, 102, 102⟩, ⟨994, 103, 203/2, 102⟩]

/-- Data-source responses for the boundary-equality run: 24h quote volume
exactly 1000 = configured minimum, last price 104. -/
def c5Data : PairData :=
  ⟨some ⟨104, 1000⟩, some c5Klines48, some c5Klines96, some c5Klines21,
   some c5KlinesDD, some c5Recent⟩

/-- C5: the three numeric admission gates of `analyze_pair` reject strictly
and accept equality: a 24h volume strictly below the configured minimum gives
absent; every returned record satisfies `volume ≥ min`, `rebound ≥ min` and
`drawdown ≤ max`; and on the concrete boundary input `c5Data` — volume equal
to the minimum, rebound equal to the minimum, pullback equal to the maximum —
a record is returned whose three gated quantities equal the thresholds
exactly. -/
theorem analyze_pair_gates (cfg : Config) (now : ℚ) (symbol : String)
    (d : PairData) :
    (∀ t, d.ticker = some t → t.quoteVolume < cfg.min_volume_24h →
        analyze_pair cfg now symbol d = none)
    ∧ (∀ r, analyze_pair cfg now symbol d = some r →
        cfg.min_volume_24h ≤ r.volume_24h
        ∧ cfg.min_price_change ≤ r.rebound_pct
        ∧ r.drawdown_from_high ≤ cfg.max_drawdown)
    ∧ (analyze_pair c5Config 1000 "EQBOUND" c5Data).map
        (fun r => (r.volume_24h, r.rebound_pct, r.drawdown_from_high))
      = some (c5Config.min_volume_24h, c5Config.min_price_change,
          c5Config.max_drawdown) := by
  refine ⟨?_, ?_, ?_⟩
  · intro t ht hv
    simp only [analyze_pair, ht]
    simp [hv]
  · intro r h
    simp only [analyze_pair] at h
    cases ht : d.ticker with
    | none => rw [ht] at h; exact absurd h (by simp)
    | some t =>
    simp only [ht] at h
    by_cases hv : t.quoteVolume < cfg.min_volume_24h
    · simp [hv] at h
    rw [if_neg hv] at h
    cases h48 : analyze_time_window now cfg.lookback_48h_hours d.klines_48h with
    | none => simp [h48] at h
    | some a48 =>
    simp only [h48] at h
    cases h96 : analyze_time_window now cfg.lookback_96h_hours d.klines_96h with
    | none => simp [h96] at h
    | some a96 =>
    simp only [h96] at h
    cases h21 : analyze_time_window now cfg.lookback_21d_hours d.klines_21d with
    | none => simp [h21] at h
    | some a21 =>
    simp only [h21] at h
    cases hdd : analyze_21d_with_drawdown cfg now t.lastPrice d.klines_21d_drawdown with
    | none => simp [hdd] at h
    | some a21dd =>
    simp only [hdd] at h
    rw [if_neg (fun hc => Option.noConfusion hc.2.2)] at h
    rw [if_neg (fun hc => Option.noConfusion hc.2.2)] at h
    rw [if_neg (fun hc => Option.noConfusion hc.2.2)] at h
    cases hkr : d.klines_recent with
    | none => simp [hkr] at h
    | some ks =>
    simp only [hkr] at h
    by_cases hk4 : ks.length < 4
    · simp [hk4] at h
    rw [if_neg hk4] at h
    by_cases hw4 : (windowCandles now cfg.lookback_hours ks).length < 4
    · simp [hw4] at h
    rw [if_neg hw4] at h
    cases hmin : pyMin (fun c => c.low) (windowCandles now cfg.lookback_hours ks) with
    | none => simp [hmin] at h
    | some al =>
    simp only [hmin] at h
    cases hmax : pyMax (fun c => c.high)
        ((windowCandles now cfg.lookback_hours ks).filter
          (fun c => al.time < c.time)) with
    | none => simp [hmax] at h
    | some hi =>
    simp only [hmax] at h
    by_cases htd : cfg.lookback_hours < hi.time - al.time
    · simp [htd] at h
    rw [if_neg htd] at h
    by_cases hl0 : al.low ≤ 0
    · simp [hl0] at h
    rw [if_neg hl0] at h
    by_cases hrb : (hi.high - al.low) / al.low * 100 < cfg.min_price_change
    · simp [hrb] at h
    rw [if_neg hrb] at h
    by_cases hh0 : hi.high ≤ 0
    · simp [hh0] at h
    rw [if_neg hh0] at h
    by_cases hpd : cfg.max_drawdown < (hi.high - t.lastPrice) / hi.high * 100
    · simp [hpd] at h
    rw [if_neg hpd] at h
    have hr := (Option.some.inj h).symm
    subst hr
    exact ⟨not_lt.mp hv, not_lt.mp hrb, not_lt.mp hpd⟩
  · norm_num [analyze_pair, analyze_time_window, analyze_21d_with_drawdown,
      drawdownFlag, windowCandles, sortByTime, sortAscBy, insertAsc, pyMin,
      pyMax, c5Config, c5Data, c5Klines48, c5Klines96, c5Klines21, c5KlinesDD,
      c5Recent]
    exact ⟨_, ⟨by simp, by simp, by simp, rfl⟩, rfl, rfl, rfl⟩

/-- Witness for C5: a volume one unit below the configured minimum is
rejected. -/
theorem analyze_pair_gates_witness :
    analyze_pair c5Config 1000 "EQBOUND"
      { c5Data with ticker := some ⟨104, 999⟩ } = none := by
  refine (analyze_pair_gates c5Config 1000 "EQBOUND" _).1 ⟨104, 999⟩ rfl ?_
  norm_num [c5Config]

/-- Configuration for the four-candle recent-window run (generous 10 %
maximum pullback). -/
def c6Config : Config :=
  ⟨12, 48, 96, 720, 5, 1000, 10, "15m", "1h", "21d", true⟩

/-- Exactly four recent-window candles (cutoff 988 for `now = 1000`): low 100
at hour 991, post-low high 106 at hour 993 — a 6 % rebound. -/
def c6Recent : List Candle :=
  [⟨991, 101, 100, 100⟩, ⟨992, 104, 101, 101⟩, ⟨993, 106, 102, 102⟩,
   ⟨994, 103, 203/2, 102⟩]

/-- Data-source responses with a four-candle recent fetch; the other horizons
reuse the passing series of the boundary run. -/
def c6Data : PairData :=
  ⟨some ⟨104, 2000⟩, some c5Klines48, some c5Klines96, some c5Klines21,
   some c5KlinesDD, some c6Recent⟩

/-- Counterexample to C6: the recent lookback window retains exactly 4 < 5
candles, yet `analyze_pair` returns a record — the inlined recent-window
analysis uses a 4-candle minimum (`app3.py` lines 367 and 385), not the
5-candle minimum of `analyze_time_window`. -/
theorem analyze_pair_four_candle_window_cex :
    (windowCandles 1000 c6Config.lookback_hours c6Recent).length = 4
    ∧ (analyze_pair c6Config 1000 "FOURC" c6Data).isSome := by
  constructor
  · norm_num [windowCandles, sortByTime, sortAscBy, insertAsc, c6Recent, c6Config]
  · norm_num [analyze_pair, analyze_time_window, analyze_21d_with_drawdown,
      drawdownFlag, windowCandles, sortByTime, sortAscBy, insertAsc, pyMin,
      pyMax, c6Config, c6Data, c5Klines48, c5Klines96, c5Klines21, c5KlinesDD,
      c6Recent]
    simp

/-- C6 amended: the recent-horizon analysis inside `analyzeSymbol` is inlined
with a 4-candle minimum rather than the Window Analyzer's 5-candle minimum:
whenever fewer than 4 candles remain in the recent lookback window the symbol
is rejected (and, per the counterexample, exactly 4 candles can be
accepted). -/
theorem analyze_pair_recent_min_candles (cfg : Config) (now : ℚ)
    (symbol : String) (d : PairData) (ks : List Candle)
    (hk : d.klines_recent = some ks)
    (hw : (windowCandles now cfg.lookback_hours ks).length < 4) :
    analyze_pair cfg now symbol d = none := by
  simp only [analyze_pair, hk]
  split
  · rfl
  split
  · rfl
  split
  · rfl
  split
  · rfl
  split
  · rfl
  split
  · rfl
  split
  · rfl
  split
  · rfl
  split
  · rfl
  split
  · rfl
  simp [hw]

/-- Witness for the amended C6: a three-candle recent window is rejected. -/
def c6Recent3 : List Candle :=
  [⟨991, 101, 100, 100⟩, ⟨992, 104, 101, 101⟩, ⟨993, 106, 102, 102⟩]

/-- Data-source responses with the three-candle recent fetch. -/
def c6Data3 : PairData :=
  { c6Data with klines_recent := some c6Recent3 }

/-- Witness for the amended C6 theorem: on `c6Data3` the recent window holds
3 < 4 candles and the symbol is rejected. -/
theorem analyze_pair_recent_min_candles_witness :
    analyze_pair c6Config 1000 "FOURC" c6Data3 = none := by
  refine analyze_pair_recent_min_candles c6Config 1000 "FOURC" c6Data3
    c6Recent3 rfl ?_
  norm_num [windowCandles, sortByTime, sortAscBy, insertAsc, c6Recent3, c6Config]

section SortDesc

variable {α : Type}

/-- Stable descending insertion by key: the new element goes after every
already-placed element whose key is not strictly smaller, so elements with
equal keys keep their insertion order. -/
def insertDesc (key : α → ℚ) (x : α) : List α → List α
  | [] => [x]
  | y :: ys => if key y < key x then x :: y :: ys else y :: insertDesc key x ys

/-- Python `results.sort(key=..., reverse=True)` (`app3.py` line 490): stable
descending sort — elements are inserted in their original order, each after
all already-placed elements with an equal or larger key. -/
def sortDescBy (key : α → ℚ) (l : List α) : List α :=
  l.foldl (fun acc x => insertDesc key x acc) []

theorem insertDesc_perm (key : α → ℚ) (x : α) (l : List α) :
    List.Perm (insertDesc key x l) (x :: l) := by
  induction l with
  | nil => exact List.Perm.refl _
  | cons y ys ih =>
    simp only [insertDesc]
    split
    · exact List.Perm.refl _
    · exact (ih.cons y).trans (List.Perm.swap x y ys)

theorem sortDescAux_perm (key : α → ℚ) (l : List α) :
    ∀ acc : List α,
      List.Perm (l.foldl (fun acc x => insertDesc key x acc) acc) (acc ++ l) := by
  induction l with
  | nil => intro acc; simp
  | cons x xs ih =>
    intro acc
    simp only [List.foldl_cons]
    refine (ih (insertDesc key x acc)).trans ?_
    refine ((insertDesc_perm key x acc).append_right xs).trans ?_
    exact List.perm_middle.symm

theorem sortDescBy_perm (key : α → ℚ) (l : List α) :
    List.Perm (sortDescBy key l) l := by
  simpa using sortDescAux_perm key l []

theorem insertDesc_pairwise (key : α → ℚ) (x : α) (l : List α)
    (h : List.Pairwise (fun a b => key b ≤ key a) l) :
    List.Pairwise (fun a b => key b ≤ key a) (insertDesc key x l) := by
  induction l with
  | nil => simp [insertDesc]
  | cons y ys ih =>
    rcases List.pairwise_cons.mp h with ⟨hy, hys⟩
    simp only [insertDesc]
    split
    · rename_i hxy
      refine List.pairwise_cons.mpr ⟨?_, h⟩
      intro b hb
      rcases List.mem_cons.mp hb with hb | hb
      · subst hb; exact le_of_lt hxy
      · exact le_trans (hy b hb) (le_of_lt hxy)
    · rename_i hxy
      refine List.pairwise_cons.mpr ⟨?_, ih hys⟩
      intro b hb
      rcases List.mem_cons.mp ((insertDesc_perm key x ys).mem_iff.mp hb) with hb2 | hb2
      · subst hb2; exact not_lt.mp hxy
      · exact hy b hb2

theorem sortDescAux_pairwise (key : α → ℚ) (l : List α) :
    ∀ acc : List α, List.Pairwise (fun a b => key b ≤ key a) acc →
      List.Pairwise (fun a b => key b ≤ key a)
        (l.foldl (fun acc x => insertDesc key x acc) acc) := by
  induction l with
  | nil => intro acc h; exact h
  | cons x xs ih =>
    intro acc h
    simp only [List.foldl_cons]
    exact ih _ (insertDesc_pairwise key x acc h)

theorem sortDescBy_pairwise (key : α → ℚ) (l : List α) :
    List.Pairwise (fun a b => key b ≤ key a) (sortDescBy key l) :=
  sortDescAux_pairwise key l [] (by simp)

theorem insertDesc_filter (key : α → ℚ) (x : α) (l : List α) (v : ℚ)
    (h : List.Pairwise (fun a b => key b ≤ key a) l) :
    (insertDesc key x l).filter (fun a => key a = v)
      = l.filter (fun a => key a = v)
        ++ if key x = v then [x] else [] := by
  induction l with
  | nil =>
    simp only [insertDesc, List.filter_nil, List.nil_append]
    by_cases hxv : key x = v
    · simp [List.filter_cons, hxv]
    · simp [List.filter_cons, hxv]
  | cons y ys ih =>
    rcases List.pairwise_cons.mp h with ⟨hy, hys⟩
    simp only [insertDesc]
    split
    · rename_i hxy
      by_cases hxv : key x = v
      · have hlt : ∀ a ∈ y :: ys, key a < v := by
          intro a ha
          rcases List.mem_cons.mp ha with ha | ha
          · subst ha; rw [← hxv]; exact hxy
          · exact lt_of_le_of_lt (hy a ha) (by rw [← hxv]; exact hxy)
        have hnone : (y :: ys).filter (fun a => key a = v) = [] := by
          rw [List.filter_eq_nil_iff]
          intro a ha
          simp only [decide_eq_true_eq]
          exact ne_of_lt (hlt a ha)
        rw [List.filter_cons_of_pos (by simp [hxv]), hnone, if_pos hxv]
        simp
      · rw [List.filter_cons_of_neg (by simp [hxv]), if_neg hxv, List.append_nil]
    · rename_i hxy
      simp only [List.filter_cons, ih hys]
      by_cases hyv : key y = v
      · simp [hyv]
      · simp [hyv]

theorem sortDescAux_filter (key : α → ℚ) (l : List α) (v : ℚ) :
    ∀ acc : List α, List.Pairwise (fun a b => key b ≤ key a) acc →
      (l.foldl (fun acc x => insertDesc key x acc) acc).filter (fun a => key a = v)
        = acc.filter (fun a => key a = v) ++ l.filter (fun a => key a = v) := by
  induction l with
  | nil => intro acc h; simp
  | cons x xs ih =>
    intro acc h
    simp only [List.foldl_cons]
    rw [ih _ (insertDesc_pairwise key x acc h), insertDesc_filter key x acc v h,
      List.filter_cons]
    by_cases hxv : key x = v
    · simp [hxv]
    · simp [hxv]

theorem sortDescBy_filter_stable (key : α → ℚ) (l : List α) (v : ℚ) :
    (sortDescBy key l).filter (fun a => key a = v)
      = l.filter (fun a => key a = v) := by
  simpa [sortDescBy] using sortDescAux_filter key l v [] (by simp)

end SortDesc

/-- The records collected by `WebScanner.scan` (`app3.py` lines 471-484):
per-symbol results arriving in completion order (`as_completed` yields
first-completed first, a nondeterministic permutation of the universe), with
absent results dropped. -/
def scanCollect (analysis : String → Option ReboundResult)
    (completionOrder : List String) : List ReboundResult :=
  completionOrder.filterMap analysis

/-- The final result list of `WebScanner.scan` (`app3.py` lines 489-493):
the collected records stable-sorted descending by the selected filter
horizon's percentage change. -/
def scanResults (cfg : Config) (analysis : String → Option ReboundResult)
    (completionOrder : List String) : List ReboundResult :=
  sortDescBy (get_filter_price_change cfg) (scanCollect analysis completionOrder)

theorem scanCollect_length (analysis : String → Option ReboundResult)
    (order : List String) :
    (scanCollect analysis order).length
      = order.countP (fun s => (analysis s).isSome) := by
  induction order with
  | nil => rfl
  | cons s ss ih =>
    simp only [scanCollect, List.filterMap_cons] at ih ⊢
    cases ha : analysis s with
    | none => simp [List.countP_cons, ha, ih]
    | some r => simp [List.countP_cons, ha, ih]

theorem scanCollect_symbols (analysis : String → Option ReboundResult)
    (order : List String)
    (hsym : ∀ s r, analysis s = some r → r.symbol = s) :
    (scanCollect analysis order).map (fun r => r.symbol)
      = order.filter (fun s => (analysis s).isSome) := by
  induction order with
  | nil => rfl
  | cons s ss ih =>
    simp only [scanCollect, List.filterMap_cons] at ih ⊢
    cases ha : analysis s with
    | none => simp [List.filter_cons, ha, ih]
    | some r => simp [List.filter_cons, ha, ih, hsym s r ha]

/-- C7: over any completion order without duplicate symbols, the scan emits
exactly as many records as symbols whose analysis succeeded, in descending
order of the configured filter horizon's percentage change, with no duplicate
symbols, and — stability — records with any given key value appear in exactly
their completion order. -/
theorem scanResults_spec (cfg : Config)
    (analysis : String → Option ReboundResult) (completionOrder : List String)
    (hsym : ∀ s r, analysis s = some r → r.symbol = s)
    (hnd : completionOrder.Nodup) :
    (scanResults cfg analysis completionOrder).length
      = completionOrder.countP (fun s => (analysis s).isSome)
    ∧ List.Pairwise (fun a b =>
        get_filter_price_change cfg b ≤ get_filter_price_change cfg a)
        (scanResults cfg analysis completionOrder)
    ∧ ((scanResults cfg analysis completionOrder).map (fun r => r.symbol)).Nodup
    ∧ ∀ v, (scanResults cfg analysis completionOrder).filter
          (fun r => get_filter_price_change cfg r = v)
        = (scanCollect analysis completionOrder).filter
          (fun r => get_filter_price_change cfg r = v) := by
  have hperm : List.Perm (scanResults cfg analysis completionOrder)
      (scanCollect analysis completionOrder) :=
    sortDescBy_perm (get_filter_price_change cfg) _
  refine ⟨?_, sortDescBy_pairwise _ _, ?_,
    fun v => sortDescBy_filter_stable _ _ v⟩
  · rw [hperm.length_eq, scanCollect_length]
  · have hmap : ((scanCollect analysis completionOrder).map
        (fun r => r.symbol)).Nodup := by
      rw [scanCollect_symbols analysis completionOrder hsym]
      exact hnd.filter _
    exact ((hperm.map (fun r => r.symbol)).nodup_iff).mpr hmap

/-- A demo record whose symbol and three percentage-change fields are the
given values; the remaining analytic fields are fixed placeholders. -/
def demoRecord (symbol : String) (pc48 pc96 pc21 : ℚ) : ReboundResult :=
  ⟨symbol, 1, 5, 2, 1, 1, "MINIMAL", pc48, pc96, pc21, 1000, 1, 0, 2, 1,
   1, 0, 2, 1, 1, 0, 2, 1, 1, 0, 2, 1, 2, 1, "2h", 5, 0⟩

/-- A demo per-symbol analysis outcome: two symbols pass, all others are
rejected. -/
def c7Analysis : String → Option ReboundResult := fun s =>
  if s = "AAA" then some (demoRecord ("AAA") 10 20 30)
  else if s = "BBB" then some (demoRecord ("BBB") 5 15 40)
  else none

/-- Witness for C7: on the concrete completion order `["AAA", "CCC", "BBB"]`
with two passing symbols, the emitted records carry no duplicate symbols. -/
theorem scanResults_spec_witness :
    ((scanResults c5Config c7Analysis ["AAA", "CCC", "BBB"]).map
      (fun r => r.symbol)).Nodup := by
  refine (scanResults_spec c5Config c7Analysis ["AAA", "CCC", "BBB"] ?_ ?_).2.2.1
  · intro s r h
    by_cases h1 : s = "AAA"
    · subst h1
      simp [c7Analysis] at h
      subst h
      rfl
    · by_cases h2 : s = "BBB"
      · subst h2
        simp [c7Analysis] at h
        subst h
        rfl
      · simp [c7Analysis, h1, h2] at h
  · simp

/-- One published scan-progress state (`app3.py` line 23, with the
`percentage` field added by `update_progress`). -/
structure ScanProgress where
  current : ℕ
  total : ℕ
  status : String
  percentage : ℤ
deriving DecidableEq, Repr

/-- Embedding of `update_progress` of the `/scan` route (`app3.py` lines 514-521):
`int((current / total) * 100)` truncates toward zero, which is the floor of
the nonnegative ratio; `0` when `total = 0`. -/
def update_progress (current total : ℕ) (status : String) : ScanProgress :=
  ⟨current, total, status,
   if 0 < total then ⌊((current : ℚ) / total) * 100⌋ else 0⟩

/-- The progress states published through the callback during one
`WebScanner.scan` run over `total` symbols (`app3.py` lines 458-493): one
initial publish, one after every 10th completion, and a final publish at
`total`; an empty universe returns before any callback (lines 462-463). -/
def scanPublishedProgress (total : ℕ) : List ScanProgress :=
  if total = 0 then []
  else
    update_progress 0 total ("Starting scan...") ::
    ((List.range total).filterMap (fun i =>
      if (i + 1) % 10 = 0 then
        some (update_progress (i + 1) total (s!"Scanning... {i + 1}/{total}"))
      else none)
    ++ [update_progress total total ("Sorting results...")])

theorem pairwise_filterMap_of_pairwise {αt βt : Type}
    (R : αt → αt → Prop) (S : βt → βt → Prop) (f : αt → Option βt)
    (hf : ∀ a b x y, R a b → f a = some x → f b = some y → S x y) :
    ∀ l : List αt, List.Pairwise R l → List.Pairwise S (l.filterMap f) := by
  intro l
  induction l with
  | nil => intro h; simp
  | cons a as ih =>
    intro h
    rcases List.pairwise_cons.mp h with ⟨ha, has⟩
    simp only [List.filterMap_cons]
    cases hfa : f a with
    | none => exact ih has
    | some x =>
      refine List.pairwise_cons.mpr ⟨?_, ih has⟩
      intro y hy
      rcases List.mem_filterMap.mp hy with ⟨b, hb, hfb⟩
      exact hf a b x y (ha b hb) hfa hfb

theorem scanProgress_mids_bounds (total : ℕ) :
    ∀ x ∈ (List.range total).filterMap (fun i =>
      if (i + 1) % 10 = 0 then some (i + 1) else none),
      x ≤ total ∧ x % 10 = 0 := by
  intro x hx
  rcases List.mem_filterMap.mp hx with ⟨i, hi, hfi⟩
  by_cases h10 : (i + 1) % 10 = 0
  · rw [if_pos h10] at hfi
    have hx1 := Option.some.inj hfi
    have := List.mem_range.mp hi
    omega
  · rw [if_neg h10] at hfi
    exact Option.noConfusion hfi

theorem scanProgress_mids_sorted (total : ℕ) :
    List.Pairwise (· < ·) ((List.range total).filterMap (fun i =>
      if (i + 1) % 10 = 0 then some (i + 1) else none)) := by
  refine pairwise_filterMap_of_pairwise (· < ·) (· < ·) _ ?_ _
    (List.pairwise_lt_range total)
  intro a b x y hab hfa hfb
  by_cases ha : (a + 1) % 10 = 0
  · rw [if_pos ha] at hfa
    by_cases hb : (b + 1) % 10 = 0
    · rw [if_pos hb] at hfb
      have := Option.some.inj hfa
      have := Option.some.inj hfb
      omega
    · rw [if_neg hb] at hfb
      exact Option.noConfusion hfb
  · rw [if_neg ha] at hfa
    exact Option.noConfusion hfa

theorem scanProgress_map_current (total : ℕ) (h : total ≠ 0) :
    (scanPublishedProgress total).map (fun p => p.current)
      = 0 :: ((List.range total).filterMap (fun i =>
          if (i + 1) % 10 = 0 then some (i + 1) else none) ++ [total]) := by
  have hfm : ∀ i : ℕ,
      (Option.map (fun p => p.current)
        (if (i + 1) % 10 = 0 then
          some (update_progress (i + 1) total (s!"Scanning... {i + 1}/{total}"))
        else none))
      = (if (i + 1) % 10 = 0 then some (i + 1) else none) := by
    intro i
    split <;> simp [update_progress]
  simp only [scanPublishedProgress, if_neg h, List.map_cons, List.map_append,
    List.map_filterMap, hfm]
  simp [update_progress]

/-- C8: the progress states published during one scan are monotonically
non-decreasing in `current`, terminate with `current = total`, intermediate
publishes occur only at multiples of 10 completions, every published state
carries the scan's `total` with `current ≤ total`, and the percentage is
`floor(current / total * 100)`. -/
theorem scanProgress_spec (total : ℕ) :
    List.Pairwise (fun a b => a ≤ b)
      ((scanPublishedProgress total).map (fun p => p.current))
    ∧ (0 < total → (scanPublishedProgress total).getLast?
        = some (update_progress total total ("Sorting results...")))
    ∧ (∀ p ∈ scanPublishedProgress total,
        p.total = total ∧ p.current ≤ total
        ∧ (p.current % 10 = 0 ∨ p.current = total))
    ∧ (∀ c t : ℕ, ∀ s : String, 0 < t →
        (update_progress c t s).percentage = ⌊((c : ℚ) / t) * 100⌋) := by
  by_cases h0 : total = 0
  · subst h0
    refine ⟨by simp [scanPublishedProgress], by simp,
      by simp [scanPublishedProgress], ?_⟩
    intro c t s ht
    simp [update_progress, ht]
  refine ⟨?_, ?_, ?_, ?_⟩
  · rw [scanProgress_map_current total h0]
    refine List.pairwise_cons.mpr ⟨fun b _ => Nat.zero_le b, ?_⟩
    rw [List.pairwise_append]
    refine ⟨(scanProgress_mids_sorted total).imp le_of_lt, by simp, ?_⟩
    intro x hx y hy
    rw [List.mem_singleton] at hy
    rw [hy]
    exact (scanProgress_mids_bounds total x hx).1
  · intro _
    simp only [scanPublishedProgress, if_neg h0]
    rw [← List.cons_append, List.getLast?_concat]
  · intro p hp
    simp only [scanPublishedProgress, if_neg h0, List.mem_cons,
      List.mem_append, List.mem_singleton] at hp
    rcases hp with hp | hp | hp | hp
    · subst hp
      exact ⟨rfl, Nat.zero_le _, Or.inl rfl⟩
    · rcases List.mem_filterMap.mp hp with ⟨i, hi, hfi⟩
      by_cases h10 : (i + 1) % 10 = 0
      · rw [if_pos h10] at hfi
        have hp2 := Option.some.inj hfi
        have hi2 := List.mem_range.mp hi
        subst hp2
        refine ⟨rfl, ?_, Or.inl ?_⟩
        · simp only [update_progress]
          omega
        · simpa [update_progress] using h10
      · rw [if_neg h10] at hfi
        exact Option.noConfusion hfi
    · subst hp
      exact ⟨rfl, le_refl _, Or.inr rfl⟩
    · simp at hp
  · intro c t s ht
    simp [update_progress, ht]

/-- Witness for C8: a 25-symbol scan terminates its published progress at
`current = total = 25`. -/
theorem scanProgress_spec_witness :
    (scanPublishedProgress 25).getLast?
      = some (update_progress 25 25 "Sorting results...") :=
  (scanProgress_spec 25).2.1 (by norm_num)

/-- The `results` array of the `/scan` route response (`app3.py` line 537):
only the first 100 records are serialized. -/
def scanResponseResults (results : List ReboundResult) : List ReboundResult :=
  results.take 100

/-- The `count` field of the `/scan` route response (`app3.py` line 552): the
full number of collected records. -/
def scanResponseCount (results : List ReboundResult) : ℕ := results.length

/-- C10: the scan-trigger response serializes at most the first 100 records
while `count` reports the full number, so with more than 100 qualifying
records `count` strictly exceeds the length of the `results` array. -/
theorem scanResponse_truncation (results : List ReboundResult) :
    (scanResponseResults results).length ≤ 100
    ∧ scanResponseResults results = results.take 100
    ∧ scanResponseCount results = results.length
    ∧ (100 < results.length →
        (scanResponseResults results).length < scanResponseCount results) := by
  refine ⟨?_, rfl, rfl, ?_⟩
  · simp [scanResponseResults]
  · intro h
    simp only [scanResponseResults, scanResponseCount, List.length_take]
    omega

/-- Witness for C10: 101 qualifying records produce a response whose `count`
exceeds its truncated `results` array. -/
theorem scanResponse_truncation_witness :
    (scanResponseResults (List.replicate 101 (demoRecord ("X") 1 2 3))).length
      < scanResponseCount (List.replicate 101 (demoRecord ("X") 1 2 3)) := by
  refine (scanResponse_truncation _).2.2.2 ?_
  simp

end Rebound
